import Mathlib

/-!
# PSK server examples: `server-psk-nonblocking.c` and `server-psk-threaded.c`

A shallow embedding of the two C programs.  Calls into the TLS library and the
operating system are answered from scripted result lists (one list per kind of
call, consumed front to back); every call the program makes is recorded, in
order, as an `Event`.  A function returns `none` only when a script it needs is
exhausted, that is, when the C code would still be waiting for the environment.
-/

/-! ## C strings and `strncmp` -/

/-- The bytes of a C string literal, without the terminating NUL. -/
def cstr (s : String) : List Nat := s.toList.map Char.toNat

/-- A list of bytes is the contents of a C string: no byte is the terminator and each fits
an `unsigned char`. -/
abbrev IsCStr (s : List Nat) : Prop := ∀ c ∈ s, c ≠ 0 ∧ c < 256

/-- The C library `strncmp(s1, s2, n)` on NUL-terminated strings given by their contents:
the byte read at the end of the contents is the terminator `0`.  At most `n` bytes are
compared, and the comparison stops at the first difference or at a terminator. -/
def strncmp (s1 s2 : List Nat) : Nat → Int
  | 0 => 0
  | n + 1 =>
    let c1 := s1.headD 0
    let c2 := s2.headD 0
    if c1 ≠ c2 then (c1 : Int) - (c2 : Int)
    else if c1 = 0 then 0
    else strncmp s1.tail s2.tail n

/-- The C library `strlen` of a string literal. -/
def strlen (s : String) : Nat := (cstr s).length

/-- A byte buffer addressed by offset (`unsigned char* key`). -/
abbrev Buffer := Nat → Nat

/-- The assignment `buf[i] = v`. -/
def Buffer.store (buf : Buffer) (i v : Nat) : Buffer :=
  fun j => if j = i then v else buf j

/-- The identity both servers expect, `"Client_identity"`. -/
def expectedIdentity : List Nat := cstr "Client_identity"

namespace NonBlocking

/-- `my_psk_server_cb` of `server-psk-nonblocking.c` (lines 102-117): the returned key
length together with the key buffer after the call.  `ssl` and `key_max_len` are unused by
the C code. -/
def my_psk_server_cb (identity : List Nat) (key : Buffer) (_key_max_len : Nat) :
    Nat × Buffer :=
  if strncmp identity (cstr "Client_identity") 15 ≠ 0 then (0, key)
  else
    let key := key.store 0 26
    let key := key.store 1 43
    let key := key.store 2 60
    let key := key.store 3 77
    (4, key)

end NonBlocking

namespace Threaded

/-- `my_psk_server_cb` of `server-psk-threaded.c` (lines 53-69): the returned key length
together with the key buffer after the call. -/
def my_psk_server_cb (identity : List Nat) (key : Buffer) (_key_max_len : Nat) :
    Nat × Buffer :=
  if strncmp identity (cstr "Client_identity") 15 ≠ 0 then (0, key)
  else
    let key := key.store 0 26
    let key := key.store 1 43
    let key := key.store 2 60
    let key := key.store 3 77
    (4, key)

end Threaded

/-! ## The TLS library and the operating system -/

/-- The constants of `cyassl/ssl.h` the programs compare against.  The header is not part of
the repository, so the functions below take the constants as a parameter. -/
structure SslConsts where
  SSL_SUCCESS : Int
  SSL_FATAL_ERROR : Int
  SSL_ERROR_WANT_READ : Int
  SSL_ERROR_WANT_WRITE : Int
  deriving DecidableEq, Repr

/-- The fatal classification is neither of the two would-block classifications. -/
abbrev SslConsts.FatalNotWouldBlock (K : SslConsts) : Prop :=
  K.SSL_FATAL_ERROR ≠ K.SSL_ERROR_WANT_READ ∧ K.SSL_FATAL_ERROR ≠ K.SSL_ERROR_WANT_WRITE

/-- The values the CyaSSL headers give these constants; used to run the model on concrete
inputs. -/
def cyasslConsts : SslConsts :=
  { SSL_SUCCESS := 1, SSL_FATAL_ERROR := -1, SSL_ERROR_WANT_READ := 2,
    SSL_ERROR_WANT_WRITE := 3 }

/-- One call made by the program, with the result the environment gave it.  The pure
queries `CyaSSL_get_error`, `CyaSSL_get_fd` and `CyaSSL_dtls` are not recorded.
`err_sys msg` stands for the line `Fatal error : msg` printed by `err_sys`, and `print_buf`
for `printf("%s\n", buf)`. -/
inductive Event where
  | listen (ret : Int)
  | accept (connfd : Int)
  | printf (msg : String)
  | print_buf
  | err_sys (msg : String)
  | exit (code : Int)
  | pthread_exit
  | CyaSSL_new (ok : Bool)
  | CyaSSL_set_fd
  | CyaSSL_set_using_nonblock
  | fcntl (ret : Int)
  | CyaSSL_accept (ret : Int) (error : Int)
  | tcp_select (ret : Int)
  | CyaSSL_read (n : Int)
  | CyaSSL_write (data : String) (len : Nat) (ret : Int)
  | time (t : Int)
  | CyaSSL_shutdown
  | CyaSSL_free
  | close (ret : Int)
  deriving DecidableEq, Repr

/-- The event is a handshake attempt (`CyaSSL_accept`). -/
def Event.isHandshake : Event → Bool
  | .CyaSSL_accept _ _ => true
  | _ => false

/-- The event is a readiness poll (`tcp_select`). -/
def Event.isPoll : Event → Bool
  | .tcp_select _ => true
  | _ => false

/-- The event is a `CyaSSL_read` call. -/
def Event.isRead : Event → Bool
  | .CyaSSL_read _ => true
  | _ => false

/-- The event is a `CyaSSL_write` call. -/
def Event.isWrite : Event → Bool
  | .CyaSSL_write _ _ _ => true
  | _ => false

/-- The event is a call of `err_sys`. -/
def Event.isErrSys : Event → Bool
  | .err_sys _ => true
  | _ => false

/-- What one `select` call leaves behind: its return value and whether the descriptor is
still a member of the read set and of the error set (`FD_ISSET`). -/
structure SelectOut where
  result : Int
  recvSet : Bool
  errSet : Bool
  deriving DecidableEq, Repr

/-- A handshake or read result: the value returned by `CyaSSL_accept` / `CyaSSL_read` and
the classification `CyaSSL_get_error(ssl, 0)` reports for that call. -/
structure SslResult where
  ret : Int
  error : Int
  deriving DecidableEq, Repr

namespace NonBlocking

/-! ## `server-psk-nonblocking.c` -/

def TEST_SELECT_FAIL : Int := 0
def TEST_TIMEOUT : Int := 1
def TEST_RECV_READY : Int := 2
def TEST_ERROR_READY : Int := 3

/-- `err_sys` (lines 49-52): prints the message and returns. -/
def err_sys (msg : String) : List Event := [Event.err_sys msg]

/-- `tcp_select` (lines 123-149), as a function of what `select` produced. -/
def tcp_select (s : SelectOut) : Int :=
  if s.result = 0 then TEST_TIMEOUT
  else if s.result > 0 then
    if s.recvSet then TEST_RECV_READY
    else if s.errSet then TEST_ERROR_READY
    else TEST_SELECT_FAIL
  else TEST_SELECT_FAIL

/-- The notice printed at the top of each iteration of the handshake loop (lines 169-172). -/
def blockNotice (K : SslConsts) (error : Int) : Event :=
  if error = K.SSL_ERROR_WANT_READ then Event.printf "... server would read block\n"
  else Event.printf "... server would write block\n"

/-- A handshake result is a would-block classification: the loop of `NonBlockingSSL` goes
on for it. -/
abbrev WouldBlock (K : SslConsts) (a : SslResult) : Prop :=
  a.ret ≠ K.SSL_SUCCESS ∧
    (a.error = K.SSL_ERROR_WANT_READ ∨ a.error = K.SSL_ERROR_WANT_WRITE)

/-- The poll reports the descriptor readable or with an error pending. -/
abbrev Ready (s : SelectOut) : Prop :=
  tcp_select s = TEST_RECV_READY ∨ tcp_select s = TEST_ERROR_READY

/-- A poll that lets the handshake loop go on: the descriptor is ready, or the poll timed
out on a session that is not datagram-oriented. -/
abbrev Benign (dtls : Bool) (p : SelectOut) : Prop :=
  Ready p ∨ (tcp_select p = TEST_TIMEOUT ∧ dtls = false)

/-- The `while` loop of `NonBlockingSSL` (lines 164-188), entered with the current values
of `ret` and `error`.  Returns the values of `ret` and `error` at loop exit and the calls
made; `none` when a script runs out while the loop is still running. -/
def NonBlockingSSL_loop (K : SslConsts) (dtls : Bool) :
    List SelectOut → List SslResult → Int → Int → Option (SslResult × List Event)
  | selects, accepts, ret, error =>
    if ret ≠ K.SSL_SUCCESS ∧
        (error = K.SSL_ERROR_WANT_READ ∨ error = K.SSL_ERROR_WANT_WRITE) then
      match selects with
      | [] => none
      | s :: selects =>
        let select_ret := tcp_select s
        let head := [blockNotice K error, Event.tcp_select select_ret]
        if select_ret = TEST_RECV_READY ∨ select_ret = TEST_ERROR_READY then
          match accepts with
          | [] => none
          | a :: accepts =>
            (NonBlockingSSL_loop K dtls selects accepts a.ret a.error).map
              fun r => (r.1, head ++ Event.CyaSSL_accept a.ret a.error :: r.2)
        else if select_ret = TEST_TIMEOUT ∧ ¬ dtls then
          (NonBlockingSSL_loop K dtls selects accepts ret K.SSL_ERROR_WANT_READ).map
            fun r => (r.1, head ++ r.2)
        else
          (NonBlockingSSL_loop K dtls selects accepts ret K.SSL_FATAL_ERROR).map
            fun r => (r.1, head ++ r.2)
    else some (⟨ret, error⟩, [])

/-- `NonBlockingSSL` from the head of its `while` loop to its end (lines 164-191): the loop
followed by the failure report. -/
def NonBlockingSSL_from (K : SslConsts) (dtls : Bool) (selects : List SelectOut)
    (accepts : List SslResult) (ret error : Int) : Option (SslResult × List Event) :=
  (NonBlockingSSL_loop K dtls selects accepts ret error).map fun r =>
    (r.1, r.2 ++ (if r.1.ret ≠ K.SSL_SUCCESS then err_sys "SSL_accept failed" else []))

/-- `NonBlockingSSL` (lines 156-192).  `accepts` scripts the successive `CyaSSL_accept`
calls, `selects` the successive `select` calls, `dtls` is the answer of `CyaSSL_dtls`.  The C
function returns nothing; the model returns the final `ret` and `error` next to the calls
made, so that the exit state can be spoken about. -/
def NonBlockingSSL (K : SslConsts) (dtls : Bool) (accepts : List SslResult)
    (selects : List SelectOut) : Option (SslResult × List Event) :=
  match accepts with
  | [] => none
  | a :: accepts =>
    (NonBlockingSSL_from K dtls selects accepts a.ret a.error).map fun r =>
      (r.1, Event.CyaSSL_accept a.ret a.error :: r.2)

/-- The reply of `respond`, `char response[] = "I hear ya for shizzle"`. -/
def response : String := "I hear ya for shizzle"

/-- A read result is a would-block on read: a negative count classified as
`SSL_ERROR_WANT_READ`. -/
abbrev WantRead (K : SslConsts) (r : SslResult) : Prop :=
  r.ret < 0 ∧ r.error = K.SSL_ERROR_WANT_READ

/-- The calls of successive passes through the retry loop of `respond`: a read, then a clock
reading. -/
def retryEvents : List SslResult → List Int → List Event
  | r :: rs, t :: ts => Event.CyaSSL_read r.ret :: Event.time t :: retryEvents rs ts
  | _, _ => []

/-- The code after the loop of `respond` (lines 89-96). -/
def respond_tail (n : Int) : Int × List Event :=
  if n > 0 then (0, [Event.print_buf])
  else (1, [Event.printf "Error: Timeout reached before read response"])

/-- The `do ... while` loop of `respond` and what follows it (lines 75-96).  `start` is
`start_time`, `n` the last read result, `cls` the classification `CyaSSL_get_error(ssl, 0)`
reports for that read, `err` the current value of the local `err`.  `difftime` of two
`time_t` readings is their difference. -/
def respond_loop (K : SslConsts) (start : Int) :
    List Int → List SslResult → Int → Int → Int → Option (Int × List Event)
  | clock, reads, n, cls, err =>
    if n < 0 then
      if cls ≠ K.SSL_ERROR_WANT_READ then some (1, err_sys "respond: read error")
      else
        match reads with
        | [] => none
        | r :: reads =>
          match clock with
          | [] => none
          | t :: clock =>
            let head := [Event.CyaSSL_read r.ret, Event.time t]
            if cls = K.SSL_ERROR_WANT_READ ∧ r.ret < 0 ∧ t - start < 10 then
              (respond_loop K start clock reads r.ret r.error cls).map
                fun x => (x.1, head ++ x.2)
            else some ((respond_tail r.ret).1, head ++ (respond_tail r.ret).2)
    else
      match clock with
      | [] => none
      | t :: clock =>
        if err = K.SSL_ERROR_WANT_READ ∧ n < 0 ∧ t - start < 10 then
          (respond_loop K start clock reads n cls err).map
            fun x => (x.1, Event.time t :: x.2)
        else some ((respond_tail n).1, Event.time t :: (respond_tail n).2)

/-- `respond` (lines 57-97): the returned status and the calls made.  `err0` is the
indeterminate initial value of the uninitialised local `err`; `reads`, `writes` and `clock`
script the successive `CyaSSL_read`, `CyaSSL_write` and `time` calls.  The C test compares
the `int` write result with the `size_t` length 21; the conversion sends a negative result
to a value far above 21, so the test agrees with the comparison of the integers. -/
def respond (K : SslConsts) (err0 : Int) (reads : List SslResult) (writes : List Int)
    (clock : List Int) : Option (Int × List Event) :=
  match reads with
  | [] => none
  | r :: reads =>
    match clock with
    | [] => none
    | start :: clock =>
      match writes with
      | [] => none
      | w :: _ =>
        let head := [Event.CyaSSL_read r.ret, Event.time start,
          Event.CyaSSL_write response (strlen response) w]
        if w ≠ (strlen response : Int) then
          some (1, head ++ err_sys "respond: write error")
        else
          (respond_loop K start clock reads r.ret r.error err0).map
            fun x => (x.1, head ++ x.2)

/-- What the environment answers during one iteration of the `for` loop of `main`:
the results of `listen`, `accept` (with whether `errno` is `EINTR`), `CyaSSL_new`, `fcntl`
and `close`, and the scripts for the handshake and the exchange on the connection. -/
structure Connection where
  listenRet : Int
  connfd : Int
  eintr : Bool
  newOk : Bool
  fcntlRet : Int
  dtls : Bool
  accepts : List SslResult
  selects : List SelectOut
  err0 : Int
  reads : List SslResult
  writes : List Int
  clock : List Int
  closeRet : Int
  deriving DecidableEq, Repr

/-- One iteration of the `for` loop of `main` (lines 231-279).  The first component is
`some r` when `main` returns `r` during the iteration and `none` when the loop goes on. -/
def main_iteration (K : SslConsts) (c : Connection) : Option (Option Int × List Event) :=
  if c.listenRet < 0 then
    some (some 1, Event.listen c.listenRet :: err_sys "listen error")
  else if c.connfd < 0 then
    if ¬ c.eintr then
      some (some 1, [Event.listen c.listenRet, Event.accept c.connfd] ++ err_sys "accept error")
    else some (none, [Event.listen c.listenRet, Event.accept c.connfd])
  else
    let evs := [Event.listen c.listenRet, Event.accept c.connfd,
      Event.printf "Connection from %s, port %d\n", Event.CyaSSL_new c.newOk]
    if ¬ c.newOk then some (some 1, evs ++ err_sys "CyaSSL_new error")
    else
      let evs := evs ++ [Event.CyaSSL_set_fd, Event.CyaSSL_set_using_nonblock,
        Event.fcntl c.fcntlRet]
      if c.fcntlRet < 0 then some (some 1, evs ++ err_sys "fcntl set failed")
      else
        match NonBlockingSSL K c.dtls c.accepts c.selects with
        | none => none
        | some hs =>
          match respond K c.err0 c.reads c.writes c.clock with
          | none => none
          | some rs =>
            let evs := evs ++ hs.2 ++ rs.2
            if rs.1 ≠ 0 then some (some 1, evs)
            else
              let evs := evs ++ [Event.CyaSSL_shutdown, Event.CyaSSL_free,
                Event.close c.closeRet]
              if c.closeRet = -1 then some (some 1, evs ++ err_sys "close error")
              else some (none, evs)

/-- The `for` loop of `main` (lines 231-279) over the successive connections: the value
`main` returns and all calls made.  The loop has no exit but `return 1`; `none` means the
server is still waiting when the scripts end. -/
def main_loop (K : SslConsts) : List Connection → Option (Int × List Event)
  | [] => none
  | c :: cs =>
    match main_iteration K c with
    | none => none
    | some (some r, evs) => some (r, evs)
    | some (none, evs) => (main_loop K cs).map fun x => (x.1, evs ++ x.2)

end NonBlocking

namespace Threaded

/-! ## `server-psk-threaded.c` -/

/-- How a worker's control flow ends: `exit` ends the whole process, `pthread_exit` only the
calling thread. -/
inductive Termination where
  | process_exit (code : Int)
  | thread_exit
  deriving DecidableEq, Repr

/-- `err_sys` (lines 44-48): prints the message and calls `exit(1)`; it does not return. -/
def err_sys (msg : String) : List Event := [Event.err_sys msg, Event.exit 1]

/-- The reply of the worker, `char response[22] = "I hear ya for shizzle"`. -/
def response : String := "I hear ya for shizzle"

/-- The end of `cyassl_thread` (lines 99-104), after the calls `evs`. -/
def cyassl_thread_close (c : Int) (evs : List Event) : Termination × List Event :=
  let evs := evs ++ [Event.CyaSSL_shutdown, Event.CyaSSL_free, Event.close c]
  if c = -1 then (Termination.process_exit 1, evs ++ err_sys "close error")
  else (Termination.thread_exit, evs ++ [Event.pthread_exit])

/-- `cyassl_thread` from the test `if (n < 0)` on (lines 95-104), after the calls `evs`. -/
def cyassl_thread_after_write (n c : Int) (evs : List Event) : Termination × List Event :=
  if n < 0 then (Termination.process_exit 1, evs ++ err_sys "respond: read error")
  else cyassl_thread_close c evs

/-- `cyassl_thread` (lines 74-105).  `newOk` tells whether `CyaSSL_new` returned a session,
`n`, `w` and `c` are the results of `CyaSSL_read`, `CyaSSL_write` and `close`.  Returns how
the worker ends and the calls made. -/
def cyassl_thread (newOk : Bool) (n w c : Int) : Termination × List Event :=
  if ¬ newOk then
    (Termination.process_exit 1, Event.CyaSSL_new false :: err_sys "CyaSSL_new error")
  else
    let evs := [Event.CyaSSL_new true, Event.CyaSSL_set_fd, Event.CyaSSL_read n]
    if n > 0 then
      let evs := evs ++ [Event.print_buf, Event.CyaSSL_write response 22 w]
      if w > 22 then (Termination.process_exit 1, evs ++ err_sys "respond: write error")
      else cyassl_thread_after_write n c evs
    else cyassl_thread_after_write n c evs

end Threaded

/-! ## Shared lemmas -/

theorem strncmp_eq_zero_iff (t : List Nat) (ht : ∀ c ∈ t, c ≠ 0) (s : List Nat) :
    strncmp s t t.length = 0 ↔ s.take t.length = t := by
  induction t generalizing s with
  | nil => simp [strncmp]
  | cons c t ih =>
    have hc : c ≠ 0 := ht c (List.mem_cons_self _ _)
    have ht2 : ∀ d ∈ t, d ≠ 0 := fun d hd => ht d (List.mem_cons_of_mem _ hd)
    cases s with
    | nil =>
      simp only [List.length_cons, strncmp, List.headD_nil, List.headD_cons, List.take_nil]
      rw [if_pos (Ne.symm hc)]
      constructor
      · intro h; omega
      · intro h; cases h
    | cons a s =>
      simp only [List.length_cons, strncmp, List.headD_cons, List.tail_cons, List.take_succ_cons]
      by_cases hac : a = c
      · subst hac
        simp only [ne_eq, not_true_eq_false, if_false, if_neg hc]
        rw [ih ht2 s]
        simp
      · rw [if_pos hac]
        constructor
        · intro h; omega
        · intro h; injection h with h1 _; exact absurd h1 hac

theorem expectedIdentity_length : expectedIdentity.length = 15 := by decide

theorem expectedIdentity_nonzero : ∀ c ∈ expectedIdentity, c ≠ 0 := by decide

theorem strncmp_expected (identity : List Nat) :
    strncmp identity (cstr "Client_identity") 15 = 0 ↔ identity.take 15 = expectedIdentity := by
  have h := strncmp_eq_zero_iff expectedIdentity expectedIdentity_nonzero identity
  rw [expectedIdentity_length] at h
  exact h

namespace NonBlocking

theorem loop_exit (K : SslConsts) (dtls : Bool) (selects : List SelectOut)
    (accepts : List SslResult) (ret error : Int)
    (h : ¬ WouldBlock K ⟨ret, error⟩) :
    NonBlockingSSL_loop K dtls selects accepts ret error = some (⟨ret, error⟩, []) := by
  unfold WouldBlock at h
  cases selects <;> simp only [NonBlockingSSL_loop] <;> rw [if_neg h]

theorem loop_ready_step (K : SslConsts) (dtls : Bool) (s : SelectOut)
    (selects : List SelectOut) (a : SslResult) (accepts : List SslResult) (ret error : Int)
    (h : WouldBlock K ⟨ret, error⟩) (hs : Ready s) :
    NonBlockingSSL_loop K dtls (s :: selects) (a :: accepts) ret error =
      (NonBlockingSSL_loop K dtls selects accepts a.ret a.error).map fun r =>
        (r.1, blockNotice K error :: Event.tcp_select (tcp_select s) ::
          Event.CyaSSL_accept a.ret a.error :: r.2) := by
  unfold WouldBlock at h
  unfold Ready at hs
  simp only [NonBlockingSSL_loop]
  rw [if_pos h, if_pos hs]
  rfl

theorem loop_timeout_step (K : SslConsts) (s : SelectOut)
    (selects : List SelectOut) (accepts : List SslResult) (ret error : Int)
    (h : WouldBlock K ⟨ret, error⟩) (hs : tcp_select s = TEST_TIMEOUT) :
    NonBlockingSSL_loop K false (s :: selects) accepts ret error =
      (NonBlockingSSL_loop K false selects accepts ret K.SSL_ERROR_WANT_READ).map fun r =>
        (r.1, blockNotice K error :: Event.tcp_select TEST_TIMEOUT :: r.2) := by
  unfold WouldBlock at h
  simp only [NonBlockingSSL_loop]
  rw [if_pos h, hs]
  simp [TEST_TIMEOUT, TEST_RECV_READY, TEST_ERROR_READY]

theorem loop_fatal_step (K : SslConsts) (dtls : Bool) (s : SelectOut)
    (selects : List SelectOut) (accepts : List SslResult) (ret error : Int)
    (h : WouldBlock K ⟨ret, error⟩) (hs : ¬ Ready s)
    (ht : ¬ (tcp_select s = TEST_TIMEOUT ∧ dtls = false)) :
    NonBlockingSSL_loop K dtls (s :: selects) accepts ret error =
      (NonBlockingSSL_loop K dtls selects accepts ret K.SSL_FATAL_ERROR).map fun r =>
        (r.1, blockNotice K error :: Event.tcp_select (tcp_select s) :: r.2) := by
  unfold WouldBlock at h
  unfold Ready at hs
  have ht2 : ¬ (tcp_select s = TEST_TIMEOUT ∧ ¬ (dtls = true)) := by
    simpa using ht
  simp only [NonBlockingSSL_loop]
  rw [if_pos h, if_neg hs, if_neg ht2]
  rfl

theorem blockNotice_flags (K : SslConsts) (error : Int) :
    (blockNotice K error).isHandshake = false ∧ (blockNotice K error).isPoll = false ∧
    (blockNotice K error).isErrSys = false := by
  unfold blockNotice
  split <;> exact ⟨rfl, rfl, rfl⟩

theorem fatal_not_wouldBlock (K : SslConsts) (hK : K.FatalNotWouldBlock) (ret : Int) :
    ¬ WouldBlock K ⟨ret, K.SSL_FATAL_ERROR⟩ := by
  intro h
  rcases h.2 with h1 | h1
  · exact hK.1 h1
  · exact hK.2 h1

theorem fail_not_ready (s : SelectOut) (hs : tcp_select s = TEST_SELECT_FAIL) : ¬ Ready s := by
  unfold Ready
  rw [hs]
  decide

theorem timeout_not_ready (s : SelectOut) (hs : tcp_select s = TEST_TIMEOUT) : ¬ Ready s := by
  unfold Ready
  rw [hs]
  decide

/-- From a would-block state, `ws.length` further would-block results each followed by a
ready poll, then a success: the loop ends on the success. -/
theorem loop_ready_run (K : SslConsts) (dtls : Bool) (ok : SslResult)
    (hok : ok.ret = K.SSL_SUCCESS) (restA : List SslResult) (restS : List SelectOut) :
    ∀ (ws : List SslResult) (rs : List SelectOut) (cur : SslResult),
      WouldBlock K cur → (∀ a ∈ ws, WouldBlock K a) → rs.length = ws.length + 1 →
      (∀ s ∈ rs, Ready s) →
      ∃ evs, NonBlockingSSL_loop K dtls (rs ++ restS) (ws ++ ok :: restA) cur.ret cur.error =
          some (ok, evs) ∧
        evs.countP Event.isHandshake = ws.length + 1 ∧
        evs.countP Event.isPoll = ws.length + 1 ∧
        ∀ e ∈ evs, e.isErrSys = false := by
  intro ws
  induction ws with
  | nil =>
    intro rs cur hcur _ hlen hrs
    match rs, hlen with
    | [s], _ =>
      have hs : Ready s := hrs s (List.mem_singleton.2 rfl)
      have hstep := loop_ready_step K dtls s restS ok restA cur.ret cur.error hcur hs
      have hnot : ¬ WouldBlock K ⟨ok.ret, ok.error⟩ := fun h => h.1 hok
      have hexit := loop_exit K dtls restS restA ok.ret ok.error hnot
      refine ⟨[blockNotice K cur.error, Event.tcp_select (tcp_select s),
        Event.CyaSSL_accept ok.ret ok.error], ?_, ?_, ?_, ?_⟩
      · simp only [List.singleton_append, List.nil_append]
        rw [hstep, hexit]
        rfl
      · simp only [List.countP_cons, (blockNotice_flags K cur.error).1]
        simp [Event.isHandshake]
      · simp only [List.countP_cons, (blockNotice_flags K cur.error).2.1]
        simp [Event.isPoll]
      · intro e he
        simp only [List.mem_cons, List.mem_nil_iff, or_false] at he
        rcases he with rfl | rfl | rfl
        · exact (blockNotice_flags K cur.error).2.2
        · rfl
        · rfl
  | cons w ws ih =>
    intro rs cur hcur hws hlen hrs
    match rs, hlen with
    | s :: rs, hlen =>
      have hs : Ready s := hrs s (List.mem_cons_self _ _)
      have hw : WouldBlock K w := hws w (List.mem_cons_self _ _)
      have hlen2 : rs.length = ws.length + 1 := by simpa using hlen
      obtain ⟨evs, hrun, hh, hp, he⟩ := ih rs w hw
        (fun a ha => hws a (List.mem_cons_of_mem _ ha)) hlen2
        (fun t ht => hrs t (List.mem_cons_of_mem _ ht))
      have hstep := loop_ready_step K dtls s (rs ++ restS) w (ws ++ ok :: restA)
        cur.ret cur.error hcur hs
      refine ⟨blockNotice K cur.error :: Event.tcp_select (tcp_select s) ::
        Event.CyaSSL_accept w.ret w.error :: evs, ?_, ?_, ?_, ?_⟩
      · simp only [List.cons_append]
        rw [hstep, hrun]
        rfl
      · simp only [List.countP_cons, (blockNotice_flags K cur.error).1]
        simp [Event.isHandshake, hh]
      · simp only [List.countP_cons, (blockNotice_flags K cur.error).2.1]
        simp [Event.isPoll, hp]
      · intro e hmem
        simp only [List.mem_cons] at hmem
        rcases hmem with rfl | rfl | rfl | hmem
        · exact (blockNotice_flags K cur.error).2.2
        · rfl
        · rfl
        · exact he e hmem

/-- From a would-block state, through any polls that let the loop go on (each ready poll
followed by a further would-block result), up to a poll that fails: the loop ends right
after the failed poll, in the fatal classification. -/
theorem loop_until_poll_failure (K : SslConsts) (hK : K.FatalNotWouldBlock) (dtls : Bool)
    (s : SelectOut) (hs : tcp_select s = TEST_SELECT_FAIL) (restA : List SslResult)
    (restS : List SelectOut) :
    ∀ (pre : List SelectOut) (ws : List SslResult) (ret error : Int),
      WouldBlock K ⟨ret, error⟩ → (∀ a ∈ ws, WouldBlock K a) →
      (∀ p ∈ pre, Benign dtls p) →
      pre.countP (fun p => decide (Ready p)) = ws.length →
      ∃ r evs, NonBlockingSSL_loop K dtls (pre ++ s :: restS) (ws ++ restA) ret error =
          some (⟨r, K.SSL_FATAL_ERROR⟩, evs ++ [Event.tcp_select TEST_SELECT_FAIL]) ∧
        r ≠ K.SSL_SUCCESS ∧
        evs.countP Event.isHandshake = ws.length ∧
        evs.countP Event.isPoll = pre.length ∧
        ∀ e ∈ evs, e.isErrSys = false := by
  intro pre
  induction pre with
  | nil =>
    intro ws ret error hcur _ _ hcount
    have hws : ws = [] := List.length_eq_zero.1 (by simpa using hcount.symm)
    subst hws
    have hstep := loop_fatal_step K dtls s restS restA ret error hcur (fail_not_ready s hs)
      (fun h => absurd (hs.symm.trans h.1) (by decide))
    have hexit := loop_exit K dtls restS restA ret K.SSL_FATAL_ERROR
      (fatal_not_wouldBlock K hK ret)
    refine ⟨ret, [blockNotice K error], ?_, hcur.1, ?_, ?_, ?_⟩
    · simp only [List.nil_append]
      rw [hstep, hexit, hs]
      rfl
    · simp only [List.countP_cons, (blockNotice_flags K error).1]
      simp
    · simp only [List.countP_cons, (blockNotice_flags K error).2.1]
      simp
    · intro e he
      rw [List.mem_singleton.1 he]
      exact (blockNotice_flags K error).2.2
  | cons p pre ih =>
    intro ws ret error hcur hws hpre hcount
    have hpre2 : ∀ q ∈ pre, Benign dtls q := fun q hq => hpre q (List.mem_cons_of_mem _ hq)
    by_cases hp : Ready p
    · cases ws with
      | nil => simp [List.countP_cons, hp] at hcount
      | cons w ws =>
        have hw : WouldBlock K ⟨w.ret, w.error⟩ := hws w (List.mem_cons_self _ _)
        have hcount2 : pre.countP (fun p => decide (Ready p)) = ws.length := by
          simpa [List.countP_cons, hp] using hcount
        obtain ⟨r, evs, hrun, hr, hh, hpl, he⟩ := ih ws w.ret w.error hw
          (fun a ha => hws a (List.mem_cons_of_mem _ ha)) hpre2 hcount2
        have hstep := loop_ready_step K dtls p (pre ++ s :: restS) w (ws ++ restA)
          ret error hcur hp
        refine ⟨r, blockNotice K error :: Event.tcp_select (tcp_select p) ::
          Event.CyaSSL_accept w.ret w.error :: evs, ?_, hr, ?_, ?_, ?_⟩
        · simp only [List.cons_append]
          rw [hstep, hrun]
          rfl
        · simp only [List.countP_cons, (blockNotice_flags K error).1]
          simp [Event.isHandshake, hh]
        · simp only [List.countP_cons, (blockNotice_flags K error).2.1]
          simp [Event.isPoll, hpl]
        · intro e hmem
          simp only [List.mem_cons] at hmem
          rcases hmem with rfl | rfl | rfl | hmem
          · exact (blockNotice_flags K error).2.2
          · rfl
          · rfl
          · exact he e hmem
    · have hb := hpre p (List.mem_cons_self _ _)
      unfold Benign at hb
      rcases hb with hb | ⟨hto, hd⟩
      · exact absurd hb hp
      · subst hd
        have hcur2 : WouldBlock K ⟨ret, K.SSL_ERROR_WANT_READ⟩ := ⟨hcur.1, Or.inl rfl⟩
        have hcount2 : pre.countP (fun p => decide (Ready p)) = ws.length := by
          simpa [List.countP_cons, hp] using hcount
        obtain ⟨r, evs, hrun, hr, hh, hpl, he⟩ := ih ws ret K.SSL_ERROR_WANT_READ hcur2
          hws hpre2 hcount2
        have hstep := loop_timeout_step K p (pre ++ s :: restS) (ws ++ restA)
          ret error hcur hto
        refine ⟨r, blockNotice K error :: Event.tcp_select TEST_TIMEOUT :: evs,
          ?_, hr, ?_, ?_, ?_⟩
        · simp only [List.cons_append]
          rw [hstep, hrun]
          rfl
        · simp only [List.countP_cons, (blockNotice_flags K error).1]
          simp [Event.isHandshake, hh]
        · simp only [List.countP_cons, (blockNotice_flags K error).2.1]
          simp [Event.isPoll, hpl]
        · intro e hmem
          simp only [List.mem_cons] at hmem
          rcases hmem with rfl | rfl | hmem
          · exact (blockNotice_flags K error).2.2
          · rfl
          · exact he e hmem

/-- On a stream session a run of consecutive poll timeouts is passed over: the loop goes on
from the would-block-on-read state with the handshake script untouched. -/
theorem loop_timeouts (K : SslConsts) (selects : List SelectOut) (accepts : List SslResult)
    (ret : Int) :
    ∀ (ts : List SelectOut) (t : SelectOut) (error : Int),
      WouldBlock K ⟨ret, error⟩ → (∀ x ∈ t :: ts, tcp_select x = TEST_TIMEOUT) →
      ∃ evs, NonBlockingSSL_loop K false (t :: ts ++ selects) accepts ret error =
          (NonBlockingSSL_loop K false selects accepts ret K.SSL_ERROR_WANT_READ).map
            (fun r => (r.1, evs ++ r.2)) ∧
        evs.countP Event.isPoll = ts.length + 1 ∧
        evs.countP Event.isHandshake = 0 ∧
        ∀ e ∈ evs, e.isErrSys = false := by
  intro ts
  induction ts with
  | nil =>
    intro t error hcur ht
    have hstep := loop_timeout_step K t selects accepts ret error hcur
      (ht t (List.mem_cons_self _ _))
    refine ⟨[blockNotice K error, Event.tcp_select TEST_TIMEOUT], ?_, ?_, ?_, ?_⟩
    · simp only [List.cons_append, List.nil_append]
      rw [hstep]
    · simp only [List.countP_cons, (blockNotice_flags K error).2.1]
      simp [Event.isPoll]
    · simp only [List.countP_cons, (blockNotice_flags K error).1]
      simp [Event.isHandshake]
    · intro e hmem
      simp only [List.mem_cons, List.mem_nil_iff, or_false] at hmem
      rcases hmem with rfl | rfl
      · exact (blockNotice_flags K error).2.2
      · rfl
  | cons t2 ts ih =>
    intro t error hcur ht
    have hstep := loop_timeout_step K t (t2 :: ts ++ selects) accepts ret error hcur
      (ht t (List.mem_cons_self _ _))
    obtain ⟨evs, hrun, hp, hh, he⟩ := ih t2 K.SSL_ERROR_WANT_READ ⟨hcur.1, Or.inl rfl⟩
      (fun x hx => ht x (List.mem_cons_of_mem _ hx))
    refine ⟨blockNotice K error :: Event.tcp_select TEST_TIMEOUT :: evs, ?_, ?_, ?_, ?_⟩
    · simp only [List.cons_append] at hstep hrun ⊢
      rw [hstep, hrun, Option.map_map]
      rfl
    · simp only [List.countP_cons, (blockNotice_flags K error).2.1]
      simp [Event.isPoll, hp]
    · simp only [List.countP_cons, (blockNotice_flags K error).1]
      simp [Event.isHandshake, hh]
    · intro e hmem
      simp only [List.mem_cons] at hmem
      rcases hmem with rfl | rfl | hmem
      · exact (blockNotice_flags K error).2.2
      · rfl
      · exact he e hmem

/-! ### The loop of `respond` -/

theorem retryEvents_last (late : Int) :
    ∀ (early : List Int) (rs : List SslResult), rs.length = early.length + 1 →
      ∃ pre, retryEvents rs (early ++ [late]) = pre ++ [Event.time late] ∧
        pre.countP Event.isRead = rs.length := by
  intro early
  induction early with
  | nil =>
    intro rs hlen
    match rs, hlen with
    | [r], _ => exact ⟨[Event.CyaSSL_read r.ret], rfl, rfl⟩
  | cons c early ih =>
    intro rs hlen
    match rs, hlen with
    | r :: rs, hlen =>
      obtain ⟨pre, hpre, hcount⟩ := ih rs (by simpa using hlen)
      refine ⟨Event.CyaSSL_read r.ret :: Event.time c :: pre, ?_, ?_⟩
      · simp only [List.cons_append, retryEvents]
        rw [← hpre]
        rfl
      · simp [List.countP_cons, Event.isRead, hcount]

theorem respond_loop_read_error (K : SslConsts) (start : Int) (clock : List Int)
    (reads : List SslResult) (n cls err : Int) (hn : n < 0)
    (hcls : cls ≠ K.SSL_ERROR_WANT_READ) :
    respond_loop K start clock reads n cls err = some (1, [Event.err_sys "respond: read error"]) := by
  cases clock <;> cases reads <;> rw [respond_loop] <;> rw [if_pos hn, if_pos hcls] <;> rfl

theorem respond_loop_retry (K : SslConsts) (start : Int) (t : Int) (clock : List Int)
    (r : SslResult) (reads : List SslResult) (n err : Int) (hn : n < 0)
    (hr : r.ret < 0) (ht : t - start < 10) :
    respond_loop K start (t :: clock) (r :: reads) n K.SSL_ERROR_WANT_READ err =
      (respond_loop K start clock reads r.ret r.error K.SSL_ERROR_WANT_READ).map
        fun x => (x.1, Event.CyaSSL_read r.ret :: Event.time t :: x.2) := by
  rw [respond_loop, if_pos hn, if_neg (not_not.2 rfl), if_pos ⟨rfl, hr, ht⟩]
  rfl

theorem respond_loop_last (K : SslConsts) (start : Int) (t : Int) (clock : List Int)
    (r : SslResult) (reads : List SslResult) (n err : Int) (hn : n < 0)
    (h : ¬ (r.ret < 0 ∧ t - start < 10)) :
    respond_loop K start (t :: clock) (r :: reads) n K.SSL_ERROR_WANT_READ err =
      some ((respond_tail r.ret).1,
        Event.CyaSSL_read r.ret :: Event.time t :: (respond_tail r.ret).2) := by
  rw [respond_loop, if_pos hn, if_neg (not_not.2 rfl), if_neg (fun hh => h hh.2)]
  rfl

theorem respond_loop_nonneg (K : SslConsts) (start : Int) (t : Int) (clock : List Int)
    (reads : List SslResult) (n cls err : Int) (hn : ¬ n < 0) :
    respond_loop K start (t :: clock) reads n cls err =
      some ((respond_tail n).1, Event.time t :: (respond_tail n).2) := by
  cases reads <;> rw [respond_loop, if_neg hn, if_neg (fun hh => hn hh.2.1)]

theorem respond_tail_flags (n : Int) :
    (respond_tail n).2.countP Event.isWrite = 0 ∧ (respond_tail n).2.countP Event.isRead = 0 := by
  unfold respond_tail
  split <;> exact ⟨rfl, rfl⟩

/-- The retry loop of `respond` and the code after it issue no write. -/
theorem respond_loop_no_write (K : SslConsts) (start : Int) :
    ∀ (clock : List Int) (reads : List SslResult) (n cls err : Int) (x : Int × List Event),
      respond_loop K start clock reads n cls err = some x →
      x.2.countP Event.isWrite = 0 := by
  intro clock
  induction clock with
  | nil =>
    intro reads n cls err x h
    by_cases hn : n < 0
    · by_cases hcls : cls ≠ K.SSL_ERROR_WANT_READ
      · rw [respond_loop_read_error K start [] reads n cls err hn hcls] at h
        cases h
        rfl
      · cases reads <;> rw [respond_loop, if_pos hn, if_neg hcls] at h <;> cases h
    · cases reads <;> rw [respond_loop, if_neg hn] at h <;> cases h
  | cons t clock ih =>
    intro reads n cls err x h
    by_cases hn : n < 0
    · by_cases hcls : cls ≠ K.SSL_ERROR_WANT_READ
      · rw [respond_loop_read_error K start _ reads n cls err hn hcls] at h
        cases h
        rfl
      · have hc : cls = K.SSL_ERROR_WANT_READ := not_not.1 hcls
        subst hc
        cases reads with
        | nil => rw [respond_loop, if_pos hn, if_neg (not_not.2 rfl)] at h; cases h
        | cons r reads =>
          by_cases hcond : r.ret < 0 ∧ t - start < 10
          · rw [respond_loop_retry K start t clock r reads n err hn hcond.1 hcond.2] at h
            cases hrec : respond_loop K start clock reads r.ret r.error K.SSL_ERROR_WANT_READ with
            | none => rw [hrec] at h; cases h
            | some y =>
              rw [hrec] at h
              cases h
              have := ih reads r.ret r.error K.SSL_ERROR_WANT_READ y hrec
              simp [List.countP_cons, Event.isWrite, this]
          · rw [respond_loop_last K start t clock r reads n err hn hcond] at h
            cases h
            simp [List.countP_cons, Event.isWrite, (respond_tail_flags r.ret).1]
    · rw [respond_loop_nonneg K start t clock reads n cls err hn] at h
      cases h
      simp [List.countP_cons, Event.isWrite, (respond_tail_flags n).1]

/-- With reads that keep reporting would-block on read, the retry loop runs until the first
clock reading that is 10 seconds or more after `start` and then reports the timeout. -/
theorem respond_loop_timeout (K : SslConsts) (start late : Int) (hlate : 10 ≤ late - start)
    (restR : List SslResult) (restC : List Int) :
    ∀ (early : List Int) (rs : List SslResult) (n err : Int),
      n < 0 → (∀ r ∈ rs, WantRead K r) → rs.length = early.length + 1 →
      (∀ c ∈ early, c - start < 10) →
      respond_loop K start (early ++ late :: restC) (rs ++ restR) n K.SSL_ERROR_WANT_READ err =
        some (1, retryEvents rs (early ++ [late]) ++
          [Event.printf "Error: Timeout reached before read response"]) := by
  intro early
  induction early with
  | nil =>
    intro rs n err hn hrs hlen _
    match rs, hlen with
    | [r], _ =>
      have hr := hrs r (List.mem_singleton.2 rfl)
      have hcond : ¬ (r.ret < 0 ∧ late - start < 10) := fun hh => by omega
      simp only [List.nil_append, List.singleton_append]
      rw [respond_loop_last K start late restC r restR n err hn hcond]
      have htail : respond_tail r.ret =
          (1, [Event.printf "Error: Timeout reached before read response"]) := by
        unfold respond_tail
        rw [if_neg (by have := hr.1; omega)]
      rw [htail]
      rfl
  | cons c early ih =>
    intro rs n err hn hrs hlen hearly
    match rs, hlen with
    | r :: rs, hlen =>
      have hr := hrs r (List.mem_cons_self _ _)
      have hc := hearly c (List.mem_cons_self _ _)
      simp only [List.cons_append]
      rw [respond_loop_retry K start c _ r _ n err hn hr.1 hc, hr.2,
        ih rs r.ret K.SSL_ERROR_WANT_READ hr.1
          (fun x hx => hrs x (List.mem_cons_of_mem _ hx)) (by simpa using hlen)
          (fun x hx => hearly x (List.mem_cons_of_mem _ hx))]
      rfl

end NonBlocking

/-! ## The PSK resolver -/

/-- C1 (as amended): in both servers `my_psk_server_cb` compares only the first 15 bytes.
For every identity whose first 15 bytes are `Client_identity` it returns length 4 and
stores 26, 43, 60, 77 in `key[0..3]`, leaving the rest of the buffer alone; for every
other identity it returns 0 and leaves the buffer untouched.  So the returned length is 0
exactly when the identity does not begin with the expected identity. -/
theorem psk_cb_accepts_exactly_prefixed (identity : List Nat) (key : Buffer) (maxLen : Nat) :
    Threaded.my_psk_server_cb identity key maxLen =
      NonBlocking.my_psk_server_cb identity key maxLen ∧
    ((NonBlocking.my_psk_server_cb identity key maxLen).1 = 0 ↔
      identity.take 15 ≠ expectedIdentity) ∧
    (identity.take 15 = expectedIdentity →
      (NonBlocking.my_psk_server_cb identity key maxLen).1 = 4 ∧
      (NonBlocking.my_psk_server_cb identity key maxLen).2 0 = 26 ∧
      (NonBlocking.my_psk_server_cb identity key maxLen).2 1 = 43 ∧
      (NonBlocking.my_psk_server_cb identity key maxLen).2 2 = 60 ∧
      (NonBlocking.my_psk_server_cb identity key maxLen).2 3 = 77 ∧
      ∀ j, 4 ≤ j → (NonBlocking.my_psk_server_cb identity key maxLen).2 j = key j) ∧
    (identity.take 15 ≠ expectedIdentity →
      NonBlocking.my_psk_server_cb identity key maxLen = (0, key)) := by
  refine ⟨rfl, ?_, ?_, ?_⟩
  · by_cases h : identity.take 15 = expectedIdentity
    · have h0 := (strncmp_expected identity).2 h
      simp [NonBlocking.my_psk_server_cb, h0, h]
    · have h0 : strncmp identity (cstr "Client_identity") 15 ≠ 0 :=
        fun hh => h ((strncmp_expected identity).1 hh)
      simp [NonBlocking.my_psk_server_cb, h0, h]
  · intro h
    have h0 := (strncmp_expected identity).2 h
    simp only [NonBlocking.my_psk_server_cb, h0, ne_eq, not_true_eq_false, if_false,
      Buffer.store]
    refine ⟨trivial, by simp, by simp, by simp, by simp, ?_⟩
    intro j hj
    have h1 : j ≠ 3 := by omega
    have h2 : j ≠ 2 := by omega
    have h3 : j ≠ 1 := by omega
    have h4 : j ≠ 0 := by omega
    simp [h1, h2, h3, h4]
  · intro h
    have h0 : strncmp identity (cstr "Client_identity") 15 ≠ 0 :=
      fun hh => h ((strncmp_expected identity).1 hh)
    simp [NonBlocking.my_psk_server_cb, h0]

/-- Witness for C1: the theorem at the expected identity itself. -/
theorem psk_cb_accepts_exactly_prefixed_witness :
    (cstr "Client_identity").take 15 = expectedIdentity ∧
    (NonBlocking.my_psk_server_cb (cstr "Client_identity") (fun _ => 0) 64).1 = 4 ∧
    (NonBlocking.my_psk_server_cb (cstr "Client_identity") (fun _ => 0) 64).2 0 = 26 :=
  ⟨by decide,
   ((psk_cb_accepts_exactly_prefixed (cstr "Client_identity") (fun _ => 0) 64).2.2.1
      (by decide)).1,
   ((psk_cb_accepts_exactly_prefixed (cstr "Client_identity") (fun _ => 0) 64).2.2.1
      (by decide)).2.1⟩

/-- C1 (as stated) fails: `Client_identityX` is a well-formed identity string different from
the expected identity, yet both resolvers return length 4 for it. -/
theorem psk_cb_accepts_longer_identity :
    IsCStr (cstr "Client_identityX") ∧
    cstr "Client_identityX" ≠ expectedIdentity ∧
    (NonBlocking.my_psk_server_cb (cstr "Client_identityX") (fun _ => 0) 64).1 = 4 ∧
    (Threaded.my_psk_server_cb (cstr "Client_identityX") (fun _ => 0) 64).1 = 4 := by
  decide

/-! ## The handshake driver -/

/-- C3: for every `N = ws.length`, when the handshake reports `N` would-block
classifications and then success, and each of the `N` polls in between reports readable or
error-pending, `NonBlockingSSL` returns, has issued exactly `N + 1` handshake attempts (and
`N` polls), ends with the successful result and never calls `err_sys`. -/
theorem handshake_n_wouldblock_then_success (K : SslConsts) (dtls : Bool)
    (ws : List SslResult) (ok : SslResult) (restA : List SslResult)
    (rs : List SelectOut) (restS : List SelectOut)
    (hws : ∀ a ∈ ws, NonBlocking.WouldBlock K a) (hok : ok.ret = K.SSL_SUCCESS)
    (hlen : rs.length = ws.length) (hrs : ∀ s ∈ rs, NonBlocking.Ready s) :
    ∃ evs, NonBlocking.NonBlockingSSL K dtls (ws ++ ok :: restA) (rs ++ restS) =
        some (ok, evs) ∧
      evs.countP Event.isHandshake = ws.length + 1 ∧
      evs.countP Event.isPoll = ws.length ∧
      ∀ e ∈ evs, e.isErrSys = false := by
  cases ws with
  | nil =>
    have hrs0 : rs = [] := List.length_eq_zero.1 (by simpa using hlen)
    subst hrs0
    have hnot : ¬ NonBlocking.WouldBlock K ⟨ok.ret, ok.error⟩ := fun h => h.1 hok
    have hexit := NonBlocking.loop_exit K dtls restS restA ok.ret ok.error hnot
    refine ⟨[Event.CyaSSL_accept ok.ret ok.error], ?_, rfl, rfl, ?_⟩
    · simp only [List.nil_append, NonBlocking.NonBlockingSSL, NonBlocking.NonBlockingSSL_from]
      rw [hexit]
      simp only [Option.map_some']
      rw [if_neg (not_not.2 hok)]
      simp
    · intro e he
      rw [List.mem_singleton.1 he]
      rfl
  | cons w ws =>
    have hw : NonBlocking.WouldBlock K w := hws w (List.mem_cons_self _ _)
    obtain ⟨evs, hrun, hh, hp, he⟩ := NonBlocking.loop_ready_run K dtls ok hok restA restS
      ws rs w hw (fun a ha => hws a (List.mem_cons_of_mem _ ha)) (by simpa using hlen) hrs
    refine ⟨Event.CyaSSL_accept w.ret w.error :: evs, ?_, ?_, ?_, ?_⟩
    · simp only [List.cons_append, NonBlocking.NonBlockingSSL, NonBlocking.NonBlockingSSL_from]
      rw [hrun]
      simp only [Option.map_some']
      rw [if_neg (not_not.2 hok)]
      simp
    · simp [List.countP_cons, Event.isHandshake, hh]
    · simp [List.countP_cons, Event.isPoll, hp]
    · intro e hmem
      rcases List.mem_cons.1 hmem with rfl | hmem
      · rfl
      · exact he e hmem

/-- Witness for C3: two would-block results (one on read, one on write), then success. -/
theorem handshake_n_wouldblock_then_success_witness :
    ∃ evs, NonBlocking.NonBlockingSSL cyasslConsts false
        ([⟨-1, 2⟩, ⟨-1, 3⟩] ++ ⟨1, 0⟩ :: []) ([⟨1, true, false⟩, ⟨1, false, true⟩] ++ []) =
        some (⟨1, 0⟩, evs) ∧
      evs.countP Event.isHandshake = 2 + 1 ∧
      evs.countP Event.isPoll = 2 ∧
      ∀ e ∈ evs, e.isErrSys = false :=
  handshake_n_wouldblock_then_success cyasslConsts false [⟨-1, 2⟩, ⟨-1, 3⟩] ⟨1, 0⟩ []
    [⟨1, true, false⟩, ⟨1, false, true⟩] [] (by decide) (by decide) (by decide) (by decide)

/-- C4: in every run where the handshake has only reported would-block classifications
(the first result `a0` and the further results `ws`, one after each ready poll), the polls
`pre` so far have let the loop go on, and the next poll `s` reports failure
(`TEST_SELECT_FAIL`), `NonBlockingSSL` returns with the fatal classification: the calls it
made end with the failed poll followed by `err_sys("SSL_accept failed")` and nothing else, so
no handshake attempt and no poll follows the failed poll, whatever the scripts still
hold. -/
theorem handshake_poll_failure_is_fatal (K : SslConsts) (hK : K.FatalNotWouldBlock)
    (dtls : Bool) (a0 : SslResult) (ws restA : List SslResult)
    (pre : List SelectOut) (s : SelectOut) (restS : List SelectOut)
    (ha0 : NonBlocking.WouldBlock K a0) (hws : ∀ a ∈ ws, NonBlocking.WouldBlock K a)
    (hpre : ∀ p ∈ pre, NonBlocking.Benign dtls p)
    (hcount : pre.countP (fun p => decide (NonBlocking.Ready p)) = ws.length)
    (hs : NonBlocking.tcp_select s = NonBlocking.TEST_SELECT_FAIL) :
    ∃ r evs, NonBlocking.NonBlockingSSL K dtls (a0 :: ws ++ restA) (pre ++ s :: restS) =
        some (⟨r, K.SSL_FATAL_ERROR⟩,
          evs ++ [Event.tcp_select NonBlocking.TEST_SELECT_FAIL,
            Event.err_sys "SSL_accept failed"]) ∧
      r ≠ K.SSL_SUCCESS ∧
      evs.countP Event.isHandshake = ws.length + 1 ∧
      evs.countP Event.isPoll = pre.length ∧
      ∀ e ∈ evs, e.isErrSys = false := by
  obtain ⟨r, evs, hrun, hr, hh, hp, he⟩ := NonBlocking.loop_until_poll_failure K hK dtls s hs
    restA restS pre ws a0.ret a0.error ha0 hws hpre hcount
  refine ⟨r, Event.CyaSSL_accept a0.ret a0.error :: evs, ?_, hr, ?_, ?_, ?_⟩
  · simp only [List.cons_append, NonBlocking.NonBlockingSSL, NonBlocking.NonBlockingSSL_from]
    rw [hrun]
    simp only [Option.map_some']
    rw [if_pos hr]
    simp [NonBlocking.err_sys]
  · simp [List.countP_cons, Event.isHandshake, hh]
  · simp [List.countP_cons, Event.isPoll, hp]
  · intro e hmem
    rcases List.mem_cons.1 hmem with rfl | hmem
    · rfl
    · exact he e hmem

/-- Witness for C4: a would-block, a ready poll, a second would-block, a timeout on a stream
session, then a failing poll; the scripts still hold a success and a ready poll. -/
theorem handshake_poll_failure_is_fatal_witness :
    ∃ r evs, NonBlocking.NonBlockingSSL cyasslConsts false
        (⟨-1, 2⟩ :: [⟨-1, 3⟩] ++ [⟨1, 0⟩])
        ([⟨1, true, false⟩, ⟨0, false, false⟩] ++ ⟨-1, false, false⟩ :: [⟨1, true, false⟩]) =
        some (⟨r, cyasslConsts.SSL_FATAL_ERROR⟩,
          evs ++ [Event.tcp_select NonBlocking.TEST_SELECT_FAIL,
            Event.err_sys "SSL_accept failed"]) ∧
      r ≠ cyasslConsts.SSL_SUCCESS ∧
      evs.countP Event.isHandshake = 1 + 1 ∧
      evs.countP Event.isPoll = 2 ∧
      ∀ e ∈ evs, e.isErrSys = false :=
  handshake_poll_failure_is_fatal cyasslConsts (by decide) false ⟨-1, 2⟩ [⟨-1, 3⟩] [⟨1, 0⟩]
    [⟨1, true, false⟩, ⟨0, false, false⟩] ⟨-1, false, false⟩ [⟨1, true, false⟩]
    (by decide) (by decide) (by decide) (by decide) (by decide)

/-- C10: let the handshake be in a would-block state (`ret` is not success and `error` is
would-block on read or on write) and let the next polls `t :: ts` all report a timeout
(`TEST_TIMEOUT`).  On a session that is not datagram-oriented, the iteration with the poll
`t` issues no handshake attempt and continues the loop in the would-block-on-read state,
which is again a would-block state, so the next iteration polls again; the whole run of
timeouts issues `ts.length + 1` polls, no handshake attempt and no `err_sys`, and leaves the
handshake script and `ret` unchanged.  On a datagram-oriented session the first timeout
makes the classification fatal and ends the loop, and `err_sys("SSL_accept failed")`
follows. -/
theorem handshake_poll_timeout (K : SslConsts) (hK : K.FatalNotWouldBlock)
    (t : SelectOut) (ts selects : List SelectOut) (accepts : List SslResult)
    (ret error : Int) (hcur : NonBlocking.WouldBlock K ⟨ret, error⟩)
    (ht : ∀ x ∈ t :: ts, NonBlocking.tcp_select x = NonBlocking.TEST_TIMEOUT) :
    NonBlocking.NonBlockingSSL_loop K false (t :: ts ++ selects) accepts ret error =
        (NonBlocking.NonBlockingSSL_loop K false (ts ++ selects) accepts ret
          K.SSL_ERROR_WANT_READ).map
          (fun r => (r.1, NonBlocking.blockNotice K error ::
            Event.tcp_select NonBlocking.TEST_TIMEOUT :: r.2)) ∧
    NonBlocking.WouldBlock K ⟨ret, K.SSL_ERROR_WANT_READ⟩ ∧
    (∃ evs, NonBlocking.NonBlockingSSL_loop K false (t :: ts ++ selects) accepts ret error =
          (NonBlocking.NonBlockingSSL_loop K false selects accepts ret
            K.SSL_ERROR_WANT_READ).map (fun r => (r.1, evs ++ r.2)) ∧
        evs.countP Event.isPoll = ts.length + 1 ∧
        evs.countP Event.isHandshake = 0 ∧
        ∀ e ∈ evs, e.isErrSys = false) ∧
    NonBlocking.NonBlockingSSL_from K true (t :: ts ++ selects) accepts ret error =
      some (⟨ret, K.SSL_FATAL_ERROR⟩, [NonBlocking.blockNotice K error,
        Event.tcp_select NonBlocking.TEST_TIMEOUT, Event.err_sys "SSL_accept failed"]) := by
  have ht0 := ht t (List.mem_cons_self _ _)
  refine ⟨?_, ⟨hcur.1, Or.inl rfl⟩, ?_, ?_⟩
  · exact NonBlocking.loop_timeout_step K t (ts ++ selects) accepts ret error hcur ht0
  · exact NonBlocking.loop_timeouts K selects accepts ret ts t error hcur ht
  · have hstep := NonBlocking.loop_fatal_step K true t (ts ++ selects) accepts ret error hcur
      (NonBlocking.timeout_not_ready t ht0) (by simp)
    have hexit := NonBlocking.loop_exit K true (ts ++ selects) accepts ret K.SSL_FATAL_ERROR
      (NonBlocking.fatal_not_wouldBlock K hK ret)
    simp only [NonBlocking.NonBlockingSSL_from, List.cons_append]
    rw [hstep, hexit, ht0]
    simp only [Option.map_some']
    rw [if_pos hcur.1]
    rfl

/-- Witness for C10: a handshake blocked on write, then three poll timeouts. -/
theorem handshake_poll_timeout_witness :
    NonBlocking.NonBlockingSSL_loop cyasslConsts false
        (⟨0, false, false⟩ :: [⟨0, true, false⟩, ⟨0, false, true⟩] ++ [⟨1, true, false⟩])
        [⟨1, 0⟩] (-1) 3 =
      some (⟨1, 0⟩, [.printf "... server would write block\n", .tcp_select 1,
        .printf "... server would read block\n", .tcp_select 1,
        .printf "... server would read block\n", .tcp_select 1,
        .printf "... server would read block\n", .tcp_select 2, .CyaSSL_accept 1 0]) ∧
    NonBlocking.NonBlockingSSL_from cyasslConsts true
        (⟨0, false, false⟩ :: [⟨0, true, false⟩, ⟨0, false, true⟩] ++ [⟨1, true, false⟩])
        [⟨1, 0⟩] (-1) 3 =
      some (⟨-1, cyasslConsts.SSL_FATAL_ERROR⟩,
        [NonBlocking.blockNotice cyasslConsts 3,
          Event.tcp_select NonBlocking.TEST_TIMEOUT, Event.err_sys "SSL_accept failed"]) :=
  ⟨by decide,
   (handshake_poll_timeout cyasslConsts (by decide) ⟨0, false, false⟩
      [⟨0, true, false⟩, ⟨0, false, true⟩] [⟨1, true, false⟩] [⟨1, 0⟩] (-1) 3
      (by decide) (by decide)).2.2.2⟩

/-! ## The timed response exchange -/

/-- C5: on every sequence of read, write and clock results on which `respond` returns, its
third call, after the initial read (whatever it returned) and the start clock reading, is a
write of the 21-byte reply `I hear ya for shizzle`, and that is the only write it issues.
If that write returns any count other than 21, `respond` returns 1 at once: the only further
call is `err_sys("respond: write error")`, so there is no second write and no further read;
and in that case `respond` does return. -/
theorem respond_single_write (K : SslConsts) (err0 : Int) (reads : List SslResult)
    (writes clock : List Int) :
    (∀ r evs, NonBlocking.respond K err0 reads writes clock = some (r, evs) →
      ∃ rd w start, reads.head? = some rd ∧ writes.head? = some w ∧
        clock.head? = some start ∧
        evs.take 3 = [Event.CyaSSL_read rd.ret, Event.time start,
          Event.CyaSSL_write "I hear ya for shizzle" 21 w] ∧
        evs.countP Event.isWrite = 1 ∧
        (w ≠ 21 → r = 1 ∧ evs = [Event.CyaSSL_read rd.ret, Event.time start,
          Event.CyaSSL_write "I hear ya for shizzle" 21 w,
          Event.err_sys "respond: write error"])) ∧
    (∀ rd w start, reads.head? = some rd → writes.head? = some w →
      clock.head? = some start → w ≠ 21 →
      NonBlocking.respond K err0 reads writes clock =
        some (1, [Event.CyaSSL_read rd.ret, Event.time start,
          Event.CyaSSL_write "I hear ya for shizzle" 21 w,
          Event.err_sys "respond: write error"])) := by
  have hlen : strlen "I hear ya for shizzle" = 21 := by decide
  have hresp : NonBlocking.response = "I hear ya for shizzle" := rfl
  constructor
  · intro r evs h
    cases reads with
    | nil => simp [NonBlocking.respond] at h
    | cons rd reads =>
      cases clock with
      | nil => simp [NonBlocking.respond] at h
      | cons start clock =>
        cases writes with
        | nil => simp [NonBlocking.respond] at h
        | cons w writes =>
          refine ⟨rd, w, start, rfl, rfl, rfl, ?_⟩
          simp only [NonBlocking.respond, hlen, hresp] at h
          by_cases hw : w = 21
          · subst hw
            simp only [Nat.cast_ofNat, ne_eq, not_true_eq_false, if_false] at h
            cases hrec : NonBlocking.respond_loop K start clock reads rd.ret rd.error err0 with
            | none => rw [hrec] at h; cases h
            | some x =>
              rw [hrec] at h
              cases h
              have hnw := NonBlocking.respond_loop_no_write K start clock reads rd.ret rd.error
                err0 x hrec
              refine ⟨rfl, ?_, fun hne => absurd rfl hne⟩
              simp [List.countP_cons, Event.isWrite, hnw]
          · have hw2 : w ≠ ((21 : Nat) : Int) := by simpa using hw
            rw [if_pos hw2] at h
            cases h
            exact ⟨rfl, rfl, fun _ => ⟨rfl, rfl⟩⟩
  · intro rd w start hr hwr hc hw
    cases reads with
    | nil => cases hr
    | cons rd2 reads =>
      cases clock with
      | nil => cases hc
      | cons start2 clock =>
        cases writes with
        | nil => cases hwr
        | cons w2 writes =>
          cases hr
          cases hwr
          cases hc
          have hw2 : w ≠ ((21 : Nat) : Int) := by simpa using hw
          simp only [NonBlocking.respond, hlen, hresp]
          rw [if_pos hw2]
          rfl

/-- Witness for C5: a short write of 10 bytes after an initial read that returned data. -/
theorem respond_single_write_witness :
    NonBlocking.respond cyasslConsts 0 [⟨5, 0⟩, ⟨7, 0⟩] [10, 21] [100, 101] =
      some (1, [Event.CyaSSL_read 5, Event.time 100,
        Event.CyaSSL_write "I hear ya for shizzle" 21 10,
        Event.err_sys "respond: write error"]) :=
  (respond_single_write cyasslConsts 0 [⟨5, 0⟩, ⟨7, 0⟩] [10, 21] [100, 101]).2
    ⟨5, 0⟩ 10 100 rfl rfl rfl (by decide)

/-- C6: when every read attempt reports would-block on read (the initial read `rd0` and the
retries `rs`), the write transfers the full reply, the clock readings `early` taken in the
loop are all less than 10 seconds after `start` and the next reading `late` is 10 seconds or
more after `start`, `respond` returns 1 through the timeout branch.  Its calls are the
initial read, the start reading, the write, then one read and one clock reading per pass,
then the timeout message; the last call before the message is the clock reading `late`, so
no read is issued after the first reading that is 10 seconds or more after `start`, and
the loop issues `early.length + 1` reads, one past the last reading below the budget. -/
theorem respond_timeout_after_budget (K : SslConsts) (err0 : Int) (rd0 : SslResult)
    (rs restR : List SslResult) (writes : List Int) (start : Int) (early : List Int)
    (late : Int) (restC : List Int)
    (hrd0 : NonBlocking.WantRead K rd0) (hrs : ∀ r ∈ rs, NonBlocking.WantRead K r)
    (hlen : rs.length = early.length + 1) (hearly : ∀ c ∈ early, c - start < 10)
    (hlate : 10 ≤ late - start) :
    NonBlocking.respond K err0 (rd0 :: rs ++ restR) (21 :: writes)
        (start :: early ++ late :: restC) =
      some (1, [Event.CyaSSL_read rd0.ret, Event.time start,
          Event.CyaSSL_write "I hear ya for shizzle" 21 21] ++
        NonBlocking.retryEvents rs (early ++ [late]) ++
        [Event.printf "Error: Timeout reached before read response"]) ∧
    ∃ pre, NonBlocking.retryEvents rs (early ++ [late]) = pre ++ [Event.time late] ∧
      pre.countP Event.isRead = early.length + 1 := by
  have hlen21 : strlen "I hear ya for shizzle" = 21 := by decide
  have hresp : NonBlocking.response = "I hear ya for shizzle" := rfl
  have hloop := NonBlocking.respond_loop_timeout K start late hlate restR restC early rs
    rd0.ret err0 hrd0.1 hrs hlen hearly
  constructor
  · simp only [NonBlocking.respond, List.cons_append, hlen21, hresp]
    rw [if_neg (by simp), hrd0.2, hloop]
    simp
  · obtain ⟨pre, hpre, hcount⟩ := NonBlocking.retryEvents_last late early rs hlen
    exact ⟨pre, hpre, by rw [hcount, hlen]⟩

/-- Witness for C6: three would-block reads, clock readings 100 (start), 103, 109, 110. -/
theorem respond_timeout_after_budget_witness :
    NonBlocking.respond cyasslConsts 0 (⟨-1, 2⟩ :: [⟨-1, 2⟩, ⟨-1, 2⟩, ⟨-1, 2⟩] ++ [⟨5, 0⟩])
        (21 :: []) (100 :: [103, 109] ++ 110 :: [111]) =
      some (1, [Event.CyaSSL_read (-1), Event.time 100,
          Event.CyaSSL_write "I hear ya for shizzle" 21 21] ++
        NonBlocking.retryEvents [⟨-1, 2⟩, ⟨-1, 2⟩, ⟨-1, 2⟩] ([103, 109] ++ [110]) ++
        [Event.printf "Error: Timeout reached before read response"]) :=
  (respond_timeout_after_budget cyasslConsts 0 ⟨-1, 2⟩ [⟨-1, 2⟩, ⟨-1, 2⟩, ⟨-1, 2⟩] [⟨5, 0⟩] []
    100 [103, 109] 110 [111] (by decide) (by decide) (by decide) (by decide) (by decide)).1

/-- C7 (the code at the failing inputs): `respond` takes the timeout branch although no
time has passed and no read reported would-block, when the initial read returns 0; and it
takes the timeout branch, not the read-error branch, when the last read before the budget
runs out fails with a classification other than would-block on read. -/
theorem respond_timeout_branch_without_timeout :
    NonBlocking.respond cyasslConsts 0 [⟨0, 0⟩] [21] [100, 100] =
      some (1, [Event.CyaSSL_read 0, Event.time 100,
        Event.CyaSSL_write "I hear ya for shizzle" 21 21, Event.time 100,
        Event.printf "Error: Timeout reached before read response"]) ∧
    NonBlocking.respond cyasslConsts 0 [⟨-1, 2⟩, ⟨-1, -1⟩] [21] [100, 110] =
      some (1, [Event.CyaSSL_read (-1), Event.time 100,
        Event.CyaSSL_write "I hear ya for shizzle" 21 21, Event.CyaSSL_read (-1),
        Event.time 110, Event.printf "Error: Timeout reached before read response"]) := by
  decide

/-! ## The connection loop of the non-blocking server -/

/-- C2 (the code at the failing input): on an accepted connection whose only handshake
attempt fails outright, `NonBlockingSSL` reports `SSL_accept failed` and returns, and `main`
goes on to `respond`, which reads from and writes to the session before the teardown.
In general, on every accepted connection whose handshake ends without success, the calls
of `respond` follow the calls of the handshake. -/
theorem main_responds_after_fatal_handshake :
    NonBlocking.NonBlockingSSL cyasslConsts false [⟨-1, -1⟩] [] =
      some (⟨-1, -1⟩, [Event.CyaSSL_accept (-1) (-1), Event.err_sys "SSL_accept failed"]) ∧
    NonBlocking.main_iteration cyasslConsts
        { listenRet := 0, connfd := 4, eintr := false, newOk := true, fcntlRet := 0,
          dtls := false, accepts := [⟨-1, -1⟩], selects := [], err0 := 0,
          reads := [⟨5, 0⟩], writes := [21], clock := [100, 100], closeRet := 0 } =
      some (none, [Event.listen 0, Event.accept 4,
        Event.printf "Connection from %s, port %d\n", Event.CyaSSL_new true,
        Event.CyaSSL_set_fd, Event.CyaSSL_set_using_nonblock, Event.fcntl 0,
        Event.CyaSSL_accept (-1) (-1), Event.err_sys "SSL_accept failed",
        Event.CyaSSL_read 5, Event.time 100,
        Event.CyaSSL_write "I hear ya for shizzle" 21 21, Event.time 100, Event.print_buf,
        Event.CyaSSL_shutdown, Event.CyaSSL_free, Event.close 0]) ∧
    ∀ (K : SslConsts) (c : NonBlocking.Connection) (hs : SslResult × List Event)
      (rs : Int × List Event),
      ¬ c.listenRet < 0 → ¬ c.connfd < 0 → c.newOk = true → ¬ c.fcntlRet < 0 →
      NonBlocking.NonBlockingSSL K c.dtls c.accepts c.selects = some hs →
      hs.1.ret ≠ K.SSL_SUCCESS →
      NonBlocking.respond K c.err0 c.reads c.writes c.clock = some rs →
      ∃ r pre post, NonBlocking.main_iteration K c = some (r, pre ++ hs.2 ++ rs.2 ++ post) := by
  refine ⟨by decide, by decide, ?_⟩
  intro K c hs rs hl hc hnew hf hhs _ hrs
  simp only [NonBlocking.main_iteration, hl, hc, hnew, hf, hhs, hrs, if_false,
    not_true_eq_false]
  by_cases hr : rs.1 ≠ 0
  · rw [if_pos hr]
    exact ⟨some 1, [Event.listen c.listenRet, Event.accept c.connfd,
      Event.printf "Connection from %s, port %d\n", Event.CyaSSL_new true, Event.CyaSSL_set_fd,
      Event.CyaSSL_set_using_nonblock, Event.fcntl c.fcntlRet], [], by simp⟩
  · rw [if_neg hr]
    by_cases hcl : c.closeRet = -1
    · rw [if_pos hcl]
      exact ⟨some 1, [Event.listen c.listenRet, Event.accept c.connfd,
        Event.printf "Connection from %s, port %d\n", Event.CyaSSL_new true,
        Event.CyaSSL_set_fd, Event.CyaSSL_set_using_nonblock, Event.fcntl c.fcntlRet],
        [Event.CyaSSL_shutdown, Event.CyaSSL_free, Event.close c.closeRet] ++
          NonBlocking.err_sys "close error", by simp⟩
    · rw [if_neg hcl]
      exact ⟨none, [Event.listen c.listenRet, Event.accept c.connfd,
        Event.printf "Connection from %s, port %d\n", Event.CyaSSL_new true,
        Event.CyaSSL_set_fd, Event.CyaSSL_set_using_nonblock, Event.fcntl c.fcntlRet],
        [Event.CyaSSL_shutdown, Event.CyaSSL_free, Event.close c.closeRet], by simp⟩

/-! ## The worker of the threaded server -/

/-- C8 (as amended): a per-connection failure in the worker ends the whole process.  When
`CyaSSL_new` fails, when the read returns a negative count, or when `close` returns -1
(after a read that did not fail and a write, if one was issued, that transferred all 22
bytes), the worker calls `err_sys`, which prints the message and calls `exit(1)`.  When
none of these failures occurs and the write, if issued, transferred all 22 bytes, the
worker ends only its own thread with `pthread_exit`, without calling `err_sys` or
`exit`. -/
theorem worker_failure_exits_process (n w c : Int) :
    Threaded.cyassl_thread false n w c =
      (Threaded.Termination.process_exit 1,
        [Event.CyaSSL_new false, Event.err_sys "CyaSSL_new error", Event.exit 1]) ∧
    (n < 0 →
      Threaded.cyassl_thread true n w c =
        (Threaded.Termination.process_exit 1,
          [Event.CyaSSL_new true, Event.CyaSSL_set_fd, Event.CyaSSL_read n,
            Event.err_sys "respond: read error", Event.exit 1])) ∧
    (0 ≤ n → (0 < n → w = 22) → c = -1 →
      (Threaded.cyassl_thread true n w c).1 = Threaded.Termination.process_exit 1 ∧
      ∃ pre, (Threaded.cyassl_thread true n w c).2 =
          pre ++ [Event.close (-1), Event.err_sys "close error", Event.exit 1] ∧
        ∀ e ∈ pre, e.isErrSys = false ∧ e ≠ Event.exit 1) ∧
    (0 ≤ n → (0 < n → w = 22) → c ≠ -1 →
      (Threaded.cyassl_thread true n w c).1 = Threaded.Termination.thread_exit ∧
      ∃ pre, (Threaded.cyassl_thread true n w c).2 =
          pre ++ [Event.close c, Event.pthread_exit] ∧
        ∀ e ∈ pre, e.isErrSys = false ∧ e ≠ Event.exit 1) := by
  refine ⟨rfl, ?_, ?_, ?_⟩
  · intro hn
    have hn2 : ¬ 0 < n := by omega
    simp [Threaded.cyassl_thread, Threaded.cyassl_thread_after_write, hn, hn2,
      Threaded.err_sys]
  · intro hn hw hc
    have hn2 : ¬ n < 0 := by omega
    subst hc
    by_cases hpos : 0 < n
    · have hw2 := hw hpos
      subst hw2
      have hrun : Threaded.cyassl_thread true n 22 (-1) =
          (Threaded.Termination.process_exit 1,
            [Event.CyaSSL_new true, Event.CyaSSL_set_fd, Event.CyaSSL_read n,
              Event.print_buf, Event.CyaSSL_write Threaded.response 22 22,
              Event.CyaSSL_shutdown, Event.CyaSSL_free] ++
            [Event.close (-1), Event.err_sys "close error", Event.exit 1]) := by
        simp [Threaded.cyassl_thread, Threaded.cyassl_thread_after_write,
          Threaded.cyassl_thread_close, hpos, hn2, Threaded.err_sys]
      rw [hrun]
      refine ⟨rfl, _, rfl, ?_⟩
      intro e he
      simp only [List.mem_cons, List.mem_nil_iff, or_false] at he
      rcases he with rfl | rfl | rfl | rfl | rfl | rfl | rfl <;> exact ⟨rfl, by simp⟩
    · have hrun : Threaded.cyassl_thread true n w (-1) =
          (Threaded.Termination.process_exit 1,
            [Event.CyaSSL_new true, Event.CyaSSL_set_fd, Event.CyaSSL_read n,
              Event.CyaSSL_shutdown, Event.CyaSSL_free] ++
            [Event.close (-1), Event.err_sys "close error", Event.exit 1]) := by
        simp [Threaded.cyassl_thread, Threaded.cyassl_thread_after_write,
          Threaded.cyassl_thread_close, hpos, hn2, Threaded.err_sys]
      rw [hrun]
      refine ⟨rfl, _, rfl, ?_⟩
      intro e he
      simp only [List.mem_cons, List.mem_nil_iff, or_false] at he
      rcases he with rfl | rfl | rfl | rfl | rfl <;> exact ⟨rfl, by simp⟩
  · intro hn hw hc
    have hn2 : ¬ n < 0 := by omega
    by_cases hpos : 0 < n
    · have hw2 := hw hpos
      subst hw2
      have hrun : Threaded.cyassl_thread true n 22 c =
          (Threaded.Termination.thread_exit,
            [Event.CyaSSL_new true, Event.CyaSSL_set_fd, Event.CyaSSL_read n,
              Event.print_buf, Event.CyaSSL_write Threaded.response 22 22,
              Event.CyaSSL_shutdown, Event.CyaSSL_free] ++
            [Event.close c, Event.pthread_exit]) := by
        simp [Threaded.cyassl_thread, Threaded.cyassl_thread_after_write,
          Threaded.cyassl_thread_close, hpos, hn2, hc]
      rw [hrun]
      refine ⟨rfl, _, rfl, ?_⟩
      intro e he
      simp only [List.mem_cons, List.mem_nil_iff, or_false] at he
      rcases he with rfl | rfl | rfl | rfl | rfl | rfl | rfl <;> exact ⟨rfl, by simp⟩
    · have hrun : Threaded.cyassl_thread true n w c =
          (Threaded.Termination.thread_exit,
            [Event.CyaSSL_new true, Event.CyaSSL_set_fd, Event.CyaSSL_read n,
              Event.CyaSSL_shutdown, Event.CyaSSL_free] ++
            [Event.close c, Event.pthread_exit]) := by
        simp [Threaded.cyassl_thread, Threaded.cyassl_thread_after_write,
          Threaded.cyassl_thread_close, hpos, hn2, hc]
      rw [hrun]
      refine ⟨rfl, _, rfl, ?_⟩
      intro e he
      simp only [List.mem_cons, List.mem_nil_iff, or_false] at he
      rcases he with rfl | rfl | rfl | rfl | rfl <;> exact ⟨rfl, by simp⟩

/-- Witness for C8: a worker whose read returns -1 ends the process, and a worker whose
read returns 5 bytes, whose write transfers all 22 bytes and whose close succeeds ends only
its thread. -/
theorem worker_failure_exits_process_witness :
    Threaded.cyassl_thread true (-1) 0 0 =
      (Threaded.Termination.process_exit 1,
        [Event.CyaSSL_new true, Event.CyaSSL_set_fd, Event.CyaSSL_read (-1),
          Event.err_sys "respond: read error", Event.exit 1]) ∧
    (Threaded.cyassl_thread true 5 22 0).1 = Threaded.Termination.thread_exit :=
  ⟨(worker_failure_exits_process (-1) 0 0).2.1 (by decide),
   ((worker_failure_exits_process 5 22 0).2.2.2 (by decide) (fun _ => rfl) (by decide)).1⟩

/-- C8 (as stated) fails: a read that returns a negative count, and a close that returns
-1, each end the whole process through `err_sys` and `exit(1)`. -/
theorem worker_read_error_exits_process :
    Threaded.cyassl_thread true (-1) 0 0 =
      (Threaded.Termination.process_exit 1,
        [Event.CyaSSL_new true, Event.CyaSSL_set_fd, Event.CyaSSL_read (-1),
          Event.err_sys "respond: read error", Event.exit 1]) ∧
    Threaded.cyassl_thread true 5 22 (-1) =
      (Threaded.Termination.process_exit 1,
        [Event.CyaSSL_new true, Event.CyaSSL_set_fd, Event.CyaSSL_read 5, Event.print_buf,
          Event.CyaSSL_write "I hear ya for shizzle" 22 22, Event.CyaSSL_shutdown,
          Event.CyaSSL_free, Event.close (-1), Event.err_sys "close error",
          Event.exit 1]) := by
  decide

/-- C9 (the code at the failing input): a write that transfers only 10 of the 22 bytes
requested is not reported; the worker goes on to the teardown as if the reply had been
sent.  More generally no write result below 22 leads to the write error. -/
theorem worker_ignores_short_write :
    Threaded.cyassl_thread true 5 10 0 =
      (Threaded.Termination.thread_exit,
        [Event.CyaSSL_new true, Event.CyaSSL_set_fd, Event.CyaSSL_read 5, Event.print_buf,
          Event.CyaSSL_write "I hear ya for shizzle" 22 10, Event.CyaSSL_shutdown,
          Event.CyaSSL_free, Event.close 0, Event.pthread_exit]) ∧
    ∀ n w c : Int, 0 < n → w < 22 →
      Event.err_sys "respond: write error" ∉ (Threaded.cyassl_thread true n w c).2 := by
  refine ⟨by decide, ?_⟩
  intro n w c hn hw
  have hw2 : ¬ 22 < w := by omega
  have hn2 : ¬ n < 0 := by omega
  by_cases hc : c = -1 <;>
    simp [Threaded.cyassl_thread, Threaded.cyassl_thread_after_write,
      Threaded.cyassl_thread_close, Threaded.err_sys, hn, hw2, hn2, hc]
